import Mathlib

/-!
A shallow embedding of the contrafact constraint framework.

This file embeds the core of the `contrafact` crate in Lean 4 and proves
properties of its operations.

The crate declares a `Fact` trait (file `fact.rs`) with `check` and `mutate`
operations, a bounded-retry `satisfy` driver, primitive constraints
(`predicates.rs`: equality, membership, or-combination; `facts/brute.rs`:
brute-force predicate search; `facts/in_slice.rs`: membership), and structural
lifts (`prism.rs`).

Machine values are modelled with `Nat`; the entropy source (the `arbitrary`
crate's `Unstructured`, an external collaborator) is modelled as a finite list
of bytes.  Panics and non-termination are made observable through explicit
outcome types and fuel parameters: every Rust loop without a structural
termination argument becomes a fuel-indexed recursion, with `timeout` denoting
that the bound was insufficient (so divergence shows up as `timeout` for every
fuel value).
-/

namespace Contrafact

/-- Outcome of running a piece of Rust code that may panic or diverge:
`ok` is a normal return, `panic` an unwinding panic with its message, and
`timeout` means the fuel bound was exhausted (used to witness divergence). -/
inductive RunOutcome (A : Type) where
  | ok (a : A)
  | panic (msg : String)
  | timeout
deriving DecidableEq, Repr

/-- Modelled from the spec: the entropy source (`arbitrary::Unstructured`),
an external collaborator.  It owns a finite byte cursor; drawing consumes
bytes from the front. -/
structure Unstructured where
  bytes : List Nat
deriving DecidableEq, Repr

/-- Modelled from the spec: the `Check` type (its module is not under `src/`;
only its uses are).  Per the spec it is an ordered list of violation strings,
empty iff the constraint is satisfied. -/
abbrev Check := List String

/-- The `Fact` trait of `fact.rs`, shallowly embedded: a constraint on `T`
with a `check` operation producing a violation list and a `mutate` operation
transforming the value while consuming entropy.  All implementations of this
trait present in `src/` are stateless, so the `&mut self` receivers are
modelled as pure functions. -/
structure Fact (T : Type) where
  check : T → Check
  mutate : T → Unstructured → T × Unstructured

/-- Rust `SATISFY_ATTEMPTS` from `fact.rs` line 5. -/
def SATISFY_ATTEMPTS : Nat := 10

/-- The loop body of `Fact::satisfy` (`fact.rs` lines 33-47), indexed by the
remaining number of attempts.  Each attempt runs `mutate` then `check`;
an empty check returns the mutated value, a non-empty check records the
violations and retries.  Exhausting the attempts panics with the last
violation list, modelled as `Except.error`. -/
def satisfyAux {T : Type} (f : Fact T) :
    Nat → T → Unstructured → List String → Except (List String) (T × Unstructured)
  | 0, _, _, last => .error last
  | n + 1, v, u, _ =>
    let p := f.mutate v u
    let errs := f.check p.1
    if errs = [] then .ok p else satisfyAux f n p.1 p.2 errs

/-- Rust `Fact::satisfy` (`fact.rs` lines 33-47): run the retry loop for
`SATISFY_ATTEMPTS` attempts starting with an empty last-failure list. -/
def Fact.satisfy {T : Type} (f : Fact T) (v : T) (u : Unstructured) :
    Except (List String) (T × Unstructured) :=
  satisfyAux f SATISFY_ATTEMPTS v u []

/-- The value/generator state after `n` successive applications of
`f.mutate`, i.e. the trajectory that `satisfy` drives the object along. -/
def mutateIter {T : Type} (f : Fact T) : Nat → T → Unstructured → T × Unstructured
  | 0, v, u => (v, u)
  | n + 1, v, u => mutateIter f n (f.mutate v u).1 (f.mutate v u).2

theorem satisfyAux_ok_check {T : Type} (f : Fact T) :
    ∀ (n : Nat) (v : T) (u : Unstructured) (last : List String)
      (v' : T) (u' : Unstructured),
      satisfyAux f n v u last = .ok (v', u') → f.check v' = [] := by
  intro n
  induction n with
  | zero => intro v u last v' u' h; simp [satisfyAux] at h
  | succ n ih =>
    intro v u last v' u' h
    simp only [satisfyAux] at h
    split at h
    · rename_i hemp
      have h2 := Except.ok.inj h
      have hv : v' = (f.mutate v u).1 := (congrArg Prod.fst h2).symm
      rw [hv]
      exact hemp
    · exact ih _ _ _ _ _ h

theorem satisfyAux_all_fail {T : Type} (f : Fact T) :
    ∀ (n : Nat), 1 ≤ n →
      ∀ (v : T) (u : Unstructured) (last : List String),
        (∀ i, 1 ≤ i → i ≤ n → f.check (mutateIter f i v u).1 ≠ []) →
        satisfyAux f n v u last = .error (f.check (mutateIter f n v u).1) := by
  intro n
  induction n with
  | zero => intro h; omega
  | succ n ih =>
    intro _ v u last hall
    have h1 : f.check (f.mutate v u).1 ≠ [] := by
      have := hall 1 (by omega) (by omega)
      simpa [mutateIter] using this
    simp only [satisfyAux]
    rw [if_neg (by simpa using h1)]
    rcases Nat.eq_zero_or_pos n with hn | hn
    · subst hn
      have : mutateIter f 1 v u = (f.mutate v u) := by simp [mutateIter]
      simp [satisfyAux, this]
    · have hshift : ∀ i, 1 ≤ i → i ≤ n →
          f.check (mutateIter f i (f.mutate v u).1 (f.mutate v u).2).1 ≠ [] := by
        intro i hi1 hi2
        have := hall (i + 1) (by omega) (by omega)
        simpa [mutateIter] using this
      have := ih hn (f.mutate v u).1 (f.mutate v u).2 (f.check (f.mutate v u).1) hshift
      rw [this]
      have : mutateIter f (n + 1) v u
          = mutateIter f n (f.mutate v u).1 (f.mutate v u).2 := by
        simp [mutateIter]
      rw [this]

theorem satisfyAux_first_success {T : Type} (f : Fact T) :
    ∀ (n i : Nat) (v : T) (u : Unstructured) (last : List String),
      1 ≤ i → i ≤ n →
      (∀ j, 1 ≤ j → j < i → f.check (mutateIter f j v u).1 ≠ []) →
      f.check (mutateIter f i v u).1 = [] →
      satisfyAux f n v u last = .ok (mutateIter f i v u) := by
  intro n
  induction n with
  | zero => intro i v u last hi1 hi2; omega
  | succ n ih =>
    intro i v u last hi1 hi2 hfail hsucc
    simp only [satisfyAux]
    rcases Nat.eq_or_lt_of_le hi1 with h1 | h1
    · -- success on the very first attempt
      have hi : i = 1 := h1.symm
      subst hi
      have : f.check (f.mutate v u).1 = [] := by
        simpa [mutateIter] using hsucc
      rw [if_pos (by simpa using this)]
      simp [mutateIter]
    · -- the first attempt fails; recurse on the shifted trajectory
      have hf1 : f.check (f.mutate v u).1 ≠ [] := by
        have := hfail 1 (by omega) (by omega)
        simpa [mutateIter] using this
      rw [if_neg (by simpa using hf1)]
      have hstep : ∀ m, mutateIter f (m + 1) v u
          = mutateIter f m (f.mutate v u).1 (f.mutate v u).2 := by
        intro m; simp [mutateIter]
      obtain ⟨i', rfl⟩ : ∃ i', i = i' + 1 := ⟨i - 1, by omega⟩
      have hfail' : ∀ j, 1 ≤ j → j < i' →
          f.check (mutateIter f j (f.mutate v u).1 (f.mutate v u).2).1 ≠ [] := by
        intro j hj1 hj2
        have := hfail (j + 1) (by omega) (by omega)
        simpa [hstep] using this
      have hsucc' : f.check (mutateIter f i' (f.mutate v u).1 (f.mutate v u).2).1 = [] := by
        simpa [hstep] using hsucc
      rw [hstep i']
      exact ih i' (f.mutate v u).1 (f.mutate v u).2 (f.check (f.mutate v u).1)
        (by omega) (by omega) hfail' hsucc'

/-- Claim C1: if `Fact::satisfy` returns normally then `check` of the returned
value is empty; and if no attempt within the retry bound reaches an empty
check, `satisfy` fails fatally, reporting the last violation list, rather
than returning a value. -/
theorem satisfy_returns_only_checked {T : Type} (f : Fact T) (v : T) (u : Unstructured) :
    (∀ (v' : T) (u' : Unstructured),
        Fact.satisfy f v u = .ok (v', u') → f.check v' = []) ∧
    ((∀ i, 1 ≤ i → i ≤ SATISFY_ATTEMPTS → f.check (mutateIter f i v u).1 ≠ []) →
      Fact.satisfy f v u = .error (f.check (mutateIter f SATISFY_ATTEMPTS v u).1)) := by
  constructor
  · intro v' u' h
    exact satisfyAux_ok_check f SATISFY_ATTEMPTS v u [] v' u' h
  · intro hall
    exact satisfyAux_all_fail f SATISFY_ATTEMPTS (by decide) v u [] hall

/-- A concrete fact used to witness the `satisfy` theorems: it is satisfied
exactly by `0`, and its mutation rewrites any value to `0`. -/
def witFactZero : Fact Nat where
  check := fun v => if v = 0 then [] else ["nonzero"]
  mutate := fun _ u => (0, u)

theorem satisfy_returns_only_checked_witness : witFactZero.check 0 = [] :=
  (satisfy_returns_only_checked witFactZero 5 ⟨[]⟩).1 0 ⟨[]⟩ rfl

/-- A concrete fact needing exactly 8 attempts: each mutation increments the
value by one, and the check is satisfied exactly by values of at least 8. -/
def witFactEight : Fact Nat where
  check := fun v => if 8 ≤ v then [] else ["too small"]
  mutate := fun v u => (v + 1, u)

/-- Claim C2, counterexample: starting from `0`, `witFactEight` reaches an
empty check only on the 8th attempt.  `Fact::satisfy` nevertheless returns
normally (the bound is `SATISFY_ATTEMPTS = 10`), whereas the claimed
7-attempt loop would fail fatally on this input. -/
theorem satisfy_not_seven_attempts :
    Fact.satisfy witFactEight 0 ⟨[]⟩ = .ok (8, ⟨[]⟩) ∧
    satisfyAux witFactEight 7 0 ⟨[]⟩ [] = .error ["too small"] := by
  constructor
  · rfl
  · rfl

/-- Claim C2, amended: `Fact::satisfy` performs at most
`SATISFY_ATTEMPTS = 10` attempts of {mutate; check}, returns as soon as a
check is empty (at the first attempt whose check is empty), and fails
fatally with the last violation list once the 10-attempt bound is
exhausted. -/
theorem satisfy_attempt_bound {T : Type} (f : Fact T) (v : T) (u : Unstructured) :
    SATISFY_ATTEMPTS = 10 ∧
    (∀ i, 1 ≤ i → i ≤ SATISFY_ATTEMPTS →
      (∀ j, 1 ≤ j → j < i → f.check (mutateIter f j v u).1 ≠ []) →
      f.check (mutateIter f i v u).1 = [] →
      Fact.satisfy f v u = .ok (mutateIter f i v u)) ∧
    ((∀ j, 1 ≤ j → j ≤ SATISFY_ATTEMPTS → f.check (mutateIter f j v u).1 ≠ []) →
      Fact.satisfy f v u = .error (f.check (mutateIter f SATISFY_ATTEMPTS v u).1)) := by
  refine ⟨rfl, ?_, ?_⟩
  · intro i hi1 hi2 hfail hsucc
    exact satisfyAux_first_success f SATISFY_ATTEMPTS i v u [] hi1 hi2 hfail hsucc
  · intro hall
    exact satisfyAux_all_fail f SATISFY_ATTEMPTS (by decide) v u [] hall

/-- A fact that is always satisfied and mutates nothing, used to witness the
attempt-bound theorem at the first attempt. -/
def witFactTrivial : Fact Nat where
  check := fun _ => []
  mutate := fun v u => (v, u)

theorem satisfy_attempt_bound_witness :
    Fact.satisfy witFactTrivial 3 ⟨[]⟩ = .ok (mutateIter witFactTrivial 1 3 ⟨[]⟩) :=
  (satisfy_attempt_bound witFactTrivial 3 ⟨[]⟩).2.1 1 (by decide) (by decide)
    (fun j hj1 hj2 => ((Nat.not_lt.mpr hj1) hj2).elim) rfl

/-! Section: The `Constraint` primitives of `predicates.rs` -/

/-- Rust `EqOp` from `predicates.rs`. -/
inductive EqOp where
  | Equal
  | NotEqual
deriving DecidableEq, Repr

/-- Rust `EqFact` from `predicates.rs`: an equality (or inequality) constraint
against a fixed constant. -/
structure EqFact (T : Type) where
  op : EqOp
  constant : T

/-- The `eq` constructor of `predicates.rs`. -/
def eq {T : Type} (c : T) : EqFact T := ⟨EqOp.Equal, c⟩

/-- The `ne` constructor of `predicates.rs`. -/
def ne {T : Type} (c : T) : EqFact T := ⟨EqOp.NotEqual, c⟩

/-- Rust `EqFact::check` from `predicates.rs` lines 66-72, as written: assert the
(in)equality against the constant, then unconditionally call `self.check(obj)`
again.  The recursion has no base case, so it is embedded with a fuel
parameter; `timeout` at every fuel value exhibits the divergence. -/
def EqFact.checkFuel {T : Type} [DecidableEq T] (f : EqFact T) :
    Nat → T → RunOutcome Unit
  | 0, _ => .timeout
  | n + 1, obj =>
    match f.op with
    | EqOp.Equal =>
      if obj = f.constant then f.checkFuel n obj
      else .panic "assertion failed: *obj == self.constant"
    | EqOp.NotEqual =>
      if obj ≠ f.constant then f.checkFuel n obj
      else .panic "assertion failed: *obj != self.constant"

/-- Claim C3: contrary to the claim, `eq(c).check(v)` never returns a
satisfied result when `v = c`: the trailing recursive `self.check(obj)` call
on line 71 of `predicates.rs` recurses unconditionally, so the call diverges
for every fuel bound (first conjunct, at `c = v = 0`).  When `v ≠ c` the
assertion does panic, i.e. a violation is reported (second conjunct). -/
theorem eq_check_diverges_on_equal :
    (∀ n : Nat, EqFact.checkFuel (eq (0 : Nat)) n 0 = RunOutcome.timeout) ∧
    EqFact.checkFuel (eq (0 : Nat)) 1 1 =
      RunOutcome.panic "assertion failed: *obj == self.constant" := by
  constructor
  · intro n
    induction n with
    | zero => rfl
    | succ n ih => simpa [EqFact.checkFuel, eq] using ih
  · rfl

/-- The loop in the `NotEqual` arm of `EqFact::mutate` (`predicates.rs`
lines 77-82): redraw arbitrary values until one differs from the constant.
`arb` models `T::arbitrary(u).unwrap()`; the loop is fuel-indexed since it
terminates only when a differing value is drawn. -/
def eqMutateLoop {T : Type} [DecidableEq T] (c : T)
    (arb : Unstructured → T × Unstructured) :
    Nat → Unstructured → RunOutcome (T × Unstructured)
  | 0, _ => .timeout
  | n + 1, u =>
    let p := arb u
    if p.1 ≠ c then .ok p else eqMutateLoop c arb n p.2

/-- Rust `EqFact::mutate` from `predicates.rs` lines 74-84: the `Equal` arm
overwrites the object with the constant; the `NotEqual` arm redraws until the
value differs from the constant. -/
def EqFact.mutateFuel {T : Type} [DecidableEq T] (f : EqFact T)
    (arb : Unstructured → T × Unstructured) (fuel : Nat) (obj : T)
    (u : Unstructured) : RunOutcome (T × Unstructured) :=
  match f.op with
  | EqOp.Equal => .ok (f.constant, u)
  | EqOp.NotEqual => eqMutateLoop f.constant arb fuel u

/-- Claim C4: `eq(c).mutate(v, u)` unconditionally overwrites the value with
the constant `c` — for every prior value `v` — and returns the generator
unchanged, consuming no entropy. -/
theorem eq_mutate_overwrites {T : Type} [DecidableEq T] (c : T)
    (arb : Unstructured → T × Unstructured) (fuel : Nat) (v : T)
    (u : Unstructured) :
    EqFact.mutateFuel (eq c) arb fuel v u = RunOutcome.ok (c, u) := rfl

/-- Rust `InFact` from `predicates.rs`: membership in a finite candidate list. -/
structure InFact (T : Type) where
  inner : List T

/-- Modelled from the spec: `Unstructured::choose` of the external
`arbitrary` crate (an out-of-scope collaborator): pick one element of a
non-empty candidate list, consuming one byte of entropy to select the index
(an exhausted cursor degenerates to index 0); an empty candidate list makes
the `unwrap` in `InFact::mutate` panic. -/
def Unstructured.choose {T : Type} (u : Unstructured) (s : List T) :
    RunOutcome (T × Unstructured) :=
  if h : s.length = 0 then .panic "EmptyChoose"
  else
    match u.bytes with
    | [] => .ok (s.get ⟨0, Nat.pos_of_ne_zero h⟩, u)
    | b :: rest => .ok (s.get ⟨b % s.length, Nat.mod_lt b (Nat.pos_of_ne_zero h)⟩, ⟨rest⟩)

/-- Rust `InFact::check` from `predicates.rs` lines 99-101: assert that the object
is contained in the candidate list. -/
def InFact.check {T : Type} [DecidableEq T] (f : InFact T) (obj : T) :
    RunOutcome Unit :=
  if obj ∈ f.inner then .ok () else .panic "assertion failed: self.inner.contains(obj)"

/-- Rust `InFact::mutate` from `predicates.rs` lines 103-106: unconditionally
overwrite the object with a chosen candidate, then run `self.check` on the
result. -/
def InFact.mutate {T : Type} [DecidableEq T] (f : InFact T) (obj : T)
    (u : Unstructured) : RunOutcome (T × Unstructured) :=
  match Unstructured.choose u f.inner with
  | .ok (t, u') =>
    (match InFact.check f t with
     | .ok _ => .ok (t, u')
     | .panic m => .panic m
     | .timeout => .timeout)
  | .panic m => .panic m
  | .timeout => .timeout

/-- Claim C5, counterexample: for the candidate set `[1, 2]` and the value
`1` — already a member — `InFact::mutate` (`predicates.rs`) does not leave
the value unchanged with no entropy consumed: it redraws, returning the
member `2 ≠ 1` and consuming a byte of the generator. -/
theorem in_mutate_redraws_member :
    ((1 : Nat) ∈ [1, 2]) ∧
    InFact.mutate ⟨[1, 2]⟩ (1 : Nat) ⟨[1]⟩ = RunOutcome.ok (2, ⟨[]⟩) ∧
    ((2, (⟨[]⟩ : Unstructured)) ≠ ((1 : Nat), (⟨[1]⟩ : Unstructured))) := by
  refine ⟨by decide, by rfl, by decide⟩

/-! Section: The newer-generation `Generator` and `in_slice` (`facts/in_slice.rs`) -/

/-- Modelled from the spec: the generator's mode flag — `Build` consumes
bytes to synthesize values, `CheckOnly` refuses to introduce new
randomness. -/
inductive GenMode where
  | Build
  | CheckOnly
deriving DecidableEq, Repr

/-- Modelled from the spec: the `Generator` of the newer design (its module
is not under `src/`): a finite byte cursor together with a mode flag. -/
structure Generator where
  mode : GenMode
  bytes : List Nat
deriving DecidableEq, Repr

/-- Modelled from the spec: `Generator::choose` — select one element of a
non-empty ordered candidate list.  In `CheckOnly` mode any attempt to draw
fails fast with the caller-supplied reason; in `Build` mode it fails
`EmptyCandidates` on an empty list and `Exhausted` on an empty byte cursor,
and otherwise consumes one byte to select the index. -/
def Generator.choose {T : Type} (g : Generator) (s : List T) (reason : String) :
    Except String (T × Generator) :=
  match g.mode with
  | GenMode.CheckOnly => .error reason
  | GenMode.Build =>
    if h : s.length = 0 then .error "EmptyCandidates"
    else
      match g.bytes with
      | [] => .error "Exhausted"
      | b :: rest =>
        .ok (s.get ⟨b % s.length, Nat.mod_lt b (Nat.pos_of_ne_zero h)⟩,
          ⟨GenMode.Build, rest⟩)

/-- Rust `in_slice` from `facts/in_slice.rs` lines 4-22: if the object is not
contained in the slice, replace it with a generator-chosen candidate
(propagating the generator's failure as an error); otherwise return the
object unchanged. -/
def in_slice {T : Type} [DecidableEq T] (context : String) (s : List T)
    (g : Generator) (obj : T) : Except String (T × Generator) :=
  if obj ∉ s then
    match Generator.choose g s (context ++ ": expected value to be contained in candidates") with
    | .ok (t, g') => .ok (t, g')
    | .error e => .error e
  else .ok (obj, g)

theorem Generator.choose_ok_mem {T : Type} (g : Generator) (s : List T)
    (reason : String) (t : T) (g' : Generator)
    (h : Generator.choose g s reason = .ok (t, g')) : t ∈ s := by
  unfold Generator.choose at h
  split at h
  · exact absurd h (by simp)
  · split at h
    · exact absurd h (by simp)
    · split at h
      · exact absurd h (by simp)
      · have h2 := Except.ok.inj h
        have ht := congrArg Prod.fst h2
        simp only [] at ht
        rw [← ht]
        exact List.get_mem s _ _

/-- Claim C5, amended: the `in_slice` membership constraint (`facts/in_slice.rs`)
behaves as claimed — a member value is left unchanged with the generator
untouched, a non-member is replaced by a generator-chosen candidate, and any
normally-returned value is a member of the candidate list.  The older
`InFact::mutate` of `predicates.rs` instead redraws unconditionally,
consuming entropy even for members, though its result is also always a
member of the candidate list. -/
theorem in_slice_membership {T : Type} [DecidableEq T] (context : String)
    (s : List T) (g : Generator) (v : T) :
    (v ∈ s → in_slice context s g v = .ok (v, g)) ∧
    (∀ (v' : T) (g' : Generator),
      in_slice context s g v = .ok (v', g') → v' ∈ s) ∧
    (∀ (f : InFact T) (u : Unstructured) (v' : T) (u' : Unstructured),
      InFact.mutate f v u = RunOutcome.ok (v', u') → v' ∈ f.inner) := by
  refine ⟨?_, ?_, ?_⟩
  · intro hv
    simp [in_slice, hv]
  · intro v' g' h
    unfold in_slice at h
    by_cases hv : v ∈ s
    · rw [if_neg (not_not_intro hv)] at h
      have h2 := Except.ok.inj h
      have hveq := congrArg Prod.fst h2
      simp only [] at hveq
      rw [← hveq]
      exact hv
    · rw [if_pos hv] at h
      cases hg : Generator.choose g s
          (context ++ ": expected value to be contained in candidates") with
      | ok p =>
        obtain ⟨t, g2⟩ := p
        rw [hg] at h
        simp only [] at h
        have h2 := Except.ok.inj h
        have hveq := congrArg Prod.fst h2
        simp only [] at hveq
        rw [← hveq]
        exact Generator.choose_ok_mem g s _ t g2 hg
      | error e =>
        rw [hg] at h
        simp at h
  · intro f u v' u' h
    unfold InFact.mutate at h
    cases hc : Unstructured.choose u f.inner with
    | ok p =>
      obtain ⟨t, u2⟩ := p
      rw [hc] at h
      simp only [] at h
      unfold InFact.check at h
      by_cases hmem : t ∈ f.inner
      · rw [if_pos hmem] at h
        simp only [] at h
        have h2 := RunOutcome.ok.inj h
        have hveq := congrArg Prod.fst h2
        simp only [] at hveq
        rw [← hveq]
        exact hmem
      · rw [if_neg hmem] at h
        simp at h
    | panic m =>
      rw [hc] at h
      simp at h
    | timeout =>
      rw [hc] at h
      simp at h

theorem in_slice_membership_witness :
    in_slice "ctx" [1, 2] ⟨GenMode.Build, [7]⟩ (1 : Nat) =
      .ok (1, ⟨GenMode.Build, [7]⟩) :=
  (in_slice_membership "ctx" [1, 2] ⟨GenMode.Build, [7]⟩ 1).1 (by decide)

/-! Section: Composite facts: `impl Fact<T> for &mut [F]` and `Vec<F>` (`fact.rs`) -/

/-- The `check` of `impl Fact<T> for &mut [F]` (`fact.rs` lines 118-123):
iterate over the members in order, flat-mapping their violation lists.  The
`Vec<F>` impl (lines 139-141) delegates to this slice impl. -/
def checkSlice {T : Type} : List (Fact T) → T → Check
  | [], _ => []
  | f :: fs, obj => f.check obj ++ checkSlice fs obj

/-- The `mutate` of `impl Fact<T> for &mut [F]` (`fact.rs` lines 126-130):
apply each member's `mutate` in order to the same object, each member
consuming the previous member's output.  The `Vec<F>` impl (lines 144-146)
delegates to this slice impl. -/
def mutateSlice {T : Type} : List (Fact T) → T → Unstructured → T × Unstructured
  | [], obj, u => (obj, u)
  | f :: fs, obj, u => mutateSlice fs (f.mutate obj u).1 (f.mutate obj u).2

/-- Claim C6: the composite check equals the in-order concatenation of the
members' checks, hence it is empty iff every member's check is empty; and the
composite mutate is the sequential in-order fold of the members' mutations
over the same object. -/
theorem composite_check_and_mutate {T : Type} (fs : List (Fact T)) (v : T)
    (u : Unstructured) :
    checkSlice fs v = (fs.map (fun f => f.check v)).flatten ∧
    (checkSlice fs v = [] ↔ ∀ f ∈ fs, f.check v = []) ∧
    mutateSlice fs v u = fs.foldl (fun p f => f.mutate p.1 p.2) (v, u) := by
  refine ⟨?_, ?_, ?_⟩
  · induction fs with
    | nil => rfl
    | cons f fs ih => simp [checkSlice, ih]
  · induction fs with
    | nil => simp [checkSlice]
    | cons f fs ih => simp [checkSlice, List.append_eq_nil, ih]
  · induction fs generalizing v u with
    | nil => rfl
    | cons f fs ih => simp [mutateSlice, List.foldl_cons, ih]

/-! Section: `PrismFact` (`prism.rs`) -/

/-- The prism accessor of `prism.rs`: a closure `Fn(&mut O) -> Option<&mut T>`
granting optional in-place access to a sub-part.  A returned mutable
reference both reads the current sub-part and writes back into the whole, so
it is embedded as a getter together with a setter. -/
structure PrismAccessor (O T : Type) where
  get : O → Option T
  set : O → T → O

/-- Rust `PrismFact` from `prism.rs`: a label, the prism accessor, and the inner
fact over the sub-part. -/
structure PrismFact (O T : Type) where
  label : String
  prism : PrismAccessor O T
  inner_fact : Fact T

/-- Rust `PrismFact::check` (`prism.rs` lines 71-86): when the prism yields a
sub-part, run the inner check on it, labelling each violation; when the
targeted variant is absent, return the empty check. -/
def PrismFact.check {O T : Type} (f : PrismFact O T) (o : O) : Check :=
  match f.prism.get o with
  | Option.some t =>
    (f.inner_fact.check t).map (fun err => "prism(" ++ f.label ++ ") > " ++ err)
  | Option.none => []

/-- Rust `PrismFact::mutate` (`prism.rs` lines 89-93): when the prism yields a
sub-part, mutate it in place through the accessor; otherwise leave the whole
untouched. -/
def PrismFact.mutate {O T : Type} (f : PrismFact O T) (o : O)
    (u : Unstructured) : O × Unstructured :=
  match f.prism.get o with
  | Option.some t =>
    let p := f.inner_fact.mutate t u
    (f.prism.set o p.1, p.2)
  | Option.none => (o, u)

/-- Rust `PrismFact::check` again, with the whole object threaded through
explicitly: the Rust code converts the shared reference into a mutable one
(`prism.rs` lines 72-77) to reuse the mutable accessor, so the object the
caller observes afterwards is the whole with the (unmodified) sub-part
written back. -/
def PrismFact.checkFrame {O T : Type} (f : PrismFact O T) (o : O) : Check × O :=
  match f.prism.get o with
  | Option.some t =>
    ((f.inner_fact.check t).map (fun err => "prism(" ++ f.label ++ ") > " ++ err),
      f.prism.set o t)
  | Option.none => ([], o)

/-- Claim C7: when the prism accessor returns `none`, `check` is empty and
`mutate` is a no-op, regardless of the inner fact; when it returns `some`,
`check` delegates to the inner fact with each violation prefixed by the
prism's label, and `mutate` applies the inner mutation to the targeted
sub-part. -/
theorem prism_absent_and_present {O T : Type} (f : PrismFact O T) (o : O)
    (u : Unstructured) :
    (f.prism.get o = Option.none →
      PrismFact.check f o = [] ∧ PrismFact.mutate f o u = (o, u)) ∧
    (∀ t, f.prism.get o = Option.some t →
      PrismFact.check f o =
        (f.inner_fact.check t).map (fun err => "prism(" ++ f.label ++ ") > " ++ err) ∧
      PrismFact.mutate f o u =
        (f.prism.set o (f.inner_fact.mutate t u).1, (f.inner_fact.mutate t u).2)) := by
  constructor
  · intro h
    constructor
    · simp [PrismFact.check, h]
    · simp [PrismFact.mutate, h]
  · intro t h
    constructor
    · simp [PrismFact.check, h]
    · simp [PrismFact.mutate, h]

/-- A prism-lifted fact whose target is always absent and whose inner
constraint is never satisfied and always rewrites; used to witness the
absent-case behavior. -/
def witPrismAbsent : PrismFact Nat Nat where
  label := "lbl"
  prism := ⟨fun _ => Option.none, fun o _ => o⟩
  inner_fact := ⟨fun _ => ["always bad"], fun v u => (v + 1, u)⟩

theorem prism_absent_and_present_witness :
    PrismFact.check witPrismAbsent 5 = [] ∧
    PrismFact.mutate witPrismAbsent 5 ⟨[3]⟩ = (5, ⟨[3]⟩) :=
  (prism_absent_and_present witPrismAbsent 5 ⟨[3]⟩).1 rfl

/-- Claim C9: provided the prism accessor is a lawful projection (writing
back the sub-part it read reconstructs the same whole, which is automatic in
Rust where the returned reference points into the whole), `PrismFact::check`
leaves the whole observably unchanged and produces the same violation list
as the read-only formulation, despite internally reusing the mutable
accessor through the `&T`-to-`&mut T` cast. -/
theorem prism_check_frame {O T : Type} (f : PrismFact O T) (o : O)
    (hlaw : ∀ t, f.prism.get o = Option.some t → f.prism.set o t = o) :
    PrismFact.checkFrame f o = (PrismFact.check f o, o) := by
  cases h : f.prism.get o with
  | none => simp [PrismFact.checkFrame, PrismFact.check, h]
  | some t => simp [PrismFact.checkFrame, PrismFact.check, h, hlaw t h]

/-- An identity prism over `Nat`, lawful at every value; used to witness the
frame theorem. -/
def witPrismId : PrismFact Nat Nat where
  label := "id"
  prism := ⟨fun o => Option.some o, fun _ t => t⟩
  inner_fact := ⟨fun v => if v = 0 then [] else ["nonzero"], fun v u => (v, u)⟩

theorem prism_check_frame_witness :
    PrismFact.checkFrame witPrismId 7 = (PrismFact.check witPrismId 7, 7) :=
  prism_check_frame witPrismId 7 (fun t h => (Option.some.inj h).symm)

/-! Section: The brute-force constraint (`facts/brute.rs`) -/

/-- Modelled from the spec: the fixed iteration ceiling of brute-force
mutation.  The constant `BRUTE_ITERATION_LIMIT` is referenced by
`facts/brute.rs` but its defining module is not under `src/`; the spec only
requires it to be a fixed bound, and its concrete value does not matter for
the theorems below. -/
def BRUTE_ITERATION_LIMIT : Nat := 100

/-- Outcome of a mutation in the newer generation: a normal return with the
new value and generator, a soft threaded error (entropy exhaustion or a
check-mode refusal), or an unwinding panic. -/
inductive BruteOutcome (T : Type) where
  | ok (t : T) (g : Generator)
  | err (e : String)
  | panic (msg : String)
deriving DecidableEq, Repr

/-- Modelled from the spec: `Generator::arbitrary` — draw an arbitrary value
from the remaining entropy (`arbFn` models the host type's decoding of one
byte), failing fast with the caller-supplied reason in `CheckOnly` mode and
with `Exhausted` when the byte cursor is empty. -/
def Generator.arbitrary {T : Type} (g : Generator) (arbFn : Nat → T)
    (reason : String) : Except String (T × Generator) :=
  match g.mode with
  | GenMode.CheckOnly => .error reason
  | GenMode.Build =>
    match g.bytes with
    | [] => .error "Exhausted"
    | b :: rest => .ok (arbFn b, ⟨GenMode.Build, rest⟩)

/-- The panic message of `brute_labeled` (`facts/brute.rs` lines 61-64). -/
def bruteMsg (lastReason : String) : String :=
  "Exceeded iteration limit of " ++ toString BRUTE_ITERATION_LIMIT ++
    " while attempting to meet a BruteFact. Last failure reason: " ++ lastReason

/-- The loop of `brute_labeled` (`facts/brute.rs` lines 50-65), for the
`brute` wrapper whose failure reason is value-independent (lines 35-42):
while the predicate rejects the current value, record the reason and redraw
a wholly new arbitrary value (propagating generator failure as a soft
error); once the iterations are used up, panic with the labelled message. -/
def bruteLoop {T : Type} (pred : T → Bool) (reason : String) (arbFn : Nat → T) :
    Nat → T → Generator → String → BruteOutcome T
  | 0, _, _, lastReason => .panic (bruteMsg lastReason)
  | fuel + 1, obj, g, _ =>
    if pred obj then .ok obj g
    else
      match Generator.arbitrary g arbFn reason with
      | .error e => .err e
      | .ok (obj', g') => bruteLoop pred reason arbFn fuel obj' g' reason

/-- The mutation of `brute(reason, pred)`: the Rust loop runs for
`0..=BRUTE_ITERATION_LIMIT`, i.e. `BRUTE_ITERATION_LIMIT + 1` iterations,
starting with an empty last-failure reason. -/
def bruteMutate {T : Type} (pred : T → Bool) (reason : String) (arbFn : Nat → T)
    (obj : T) (g : Generator) : BruteOutcome T :=
  bruteLoop pred reason arbFn (BRUTE_ITERATION_LIMIT + 1) obj g ""

theorem bruteLoop_ok_pred {T : Type} (pred : T → Bool) (reason : String)
    (arbFn : Nat → T) :
    ∀ (fuel : Nat) (obj : T) (g : Generator) (last : String) (t : T)
      (g' : Generator),
      bruteLoop pred reason arbFn fuel obj g last = .ok t g' → pred t = true := by
  intro fuel
  induction fuel with
  | zero => intro obj g last t g' h; simp [bruteLoop] at h
  | succ n ih =>
    intro obj g last t g' h
    simp only [bruteLoop] at h
    split at h
    · rename_i hp
      have ht := congrArg (fun r => match r with
        | BruteOutcome.ok a _ => a
        | _ => obj) h
      simp only [] at ht
      rw [← ht]
      exact hp
    · split at h
      · exact absurd h (by simp)
      · exact ih _ _ _ _ _ h

theorem bruteLoop_all_false_panics {T : Type} (pred : T → Bool)
    (reason : String) (arbFn : Nat → T) (hp : ∀ v, pred v = false) :
    ∀ (fuel : Nat), 1 ≤ fuel →
      ∀ (obj : T) (g : Generator) (last : String), g.mode = GenMode.Build →
        fuel ≤ g.bytes.length →
        bruteLoop pred reason arbFn fuel obj g last = .panic (bruteMsg reason) := by
  intro fuel
  induction fuel with
  | zero => intro h; omega
  | succ n ih =>
    intro _ obj g last hmode hlen
    obtain ⟨m, bs⟩ := g
    simp only [] at hmode
    subst hmode
    cases bs with
    | nil => simp at hlen
    | cons b rest =>
      simp only [bruteLoop, hp obj, if_false, Generator.arbitrary]
      rcases Nat.eq_zero_or_pos n with hn | hn
      · subst hn
        simp [bruteLoop]
      · exact ih hn (arbFn b) ⟨GenMode.Build, rest⟩ reason rfl
          (by simpa using Nat.le_of_succ_le_succ hlen)

/-- Claim C8: whenever brute mutation returns normally the predicate holds on
the returned value; and for a predicate that is always false it never
returns normally — with a `Build`-mode generator holding enough entropy it
fails fatally with the message naming the iteration limit and the last
failure reason, after the fixed `BRUTE_ITERATION_LIMIT + 1` iterations
(bounded, never an unbounded loop). -/
theorem brute_bounded_failure {T : Type} (pred : T → Bool) (reason : String)
    (arbFn : Nat → T) (obj : T) (g : Generator) :
    (∀ (t : T) (g' : Generator),
      bruteMutate pred reason arbFn obj g = .ok t g' → pred t = true) ∧
    ((∀ v, pred v = false) →
      (∀ (t : T) (g' : Generator),
        bruteMutate pred reason arbFn obj g ≠ .ok t g') ∧
      (g.mode = GenMode.Build → BRUTE_ITERATION_LIMIT + 1 ≤ g.bytes.length →
        bruteMutate pred reason arbFn obj g = .panic (bruteMsg reason))) := by
  constructor
  · intro t g' h
    exact bruteLoop_ok_pred pred reason arbFn _ obj g "" t g' h
  · intro hp
    constructor
    · intro t g' h
      have := bruteLoop_ok_pred pred reason arbFn _ obj g "" t g' h
      rw [hp t] at this
      exact Bool.false_ne_true this
    · intro hmode hlen
      exact bruteLoop_all_false_panics pred reason arbFn hp _ (by omega) obj g ""
        hmode hlen

theorem brute_bounded_failure_witness :
    bruteMutate (fun _ : Nat => false) "nope" (fun b => b) 0
      ⟨GenMode.Build, List.replicate 101 0⟩ = .panic (bruteMsg "nope") :=
  ((brute_bounded_failure (fun _ : Nat => false) "nope" (fun b => b) 0
    ⟨GenMode.Build, List.replicate 101 0⟩).2 (fun _ => rfl)).2 rfl (by decide)

/-! Section: `OrFact` (`predicates.rs`) -/

/-- The `Constraint` trait of the older generation (its defining module
`constraint.rs` is not under `src/`; the signatures are fixed by the impls
in `predicates.rs`): `check` takes the value by shared reference and panics
on violation, `mutate` rewrites the value using the entropy source. -/
structure Constraint (T : Type) where
  check : T → RunOutcome Unit
  mutate : T → Unstructured → T × Unstructured

/-- Rust `OrFact` from `predicates.rs`: the disjunction of two constraints. -/
structure OrFact (T : Type) where
  a : Constraint T
  b : Constraint T

/-- Rust `OrFact::check` (`predicates.rs` lines 130-132) is `todo!()`: it panics
unconditionally with Rust's "not yet implemented" message. -/
def OrFact.check {T : Type} (_f : OrFact T) (_obj : T) : RunOutcome Unit :=
  RunOutcome.panic "not yet implemented"

/-- Rust `Unstructured::choose(&[true, false])` in `OrFact::mutate`: one byte of
entropy selects the branch (the `arbitrary` crate returns the first
candidate when the cursor is empty). -/
def Unstructured.chooseBool (u : Unstructured) : Bool × Unstructured :=
  match u.bytes with
  | [] => (true, u)
  | b :: rest => (if b % 2 = 0 then true else false, ⟨rest⟩)

/-- Rust `OrFact::mutate` (`predicates.rs` lines 134-141): mutate through one of
the two branches chosen by the generator, then run `self.check` on the
result. -/
def OrFact.mutate {T : Type} (f : OrFact T) (obj : T) (u : Unstructured) :
    RunOutcome (T × Unstructured) :=
  let pc := Unstructured.chooseBool u
  let p := if pc.1 then f.a.mutate obj pc.2 else f.b.mutate obj pc.2
  match OrFact.check f p.1 with
  | RunOutcome.ok _ => RunOutcome.ok p
  | RunOutcome.panic m => RunOutcome.panic m
  | RunOutcome.timeout => RunOutcome.timeout

/-- Claim C10: `or(a, b).check` panics unconditionally (`todo!()`), and
consequently `or(a, b).mutate`, which runs `check` after mutating through a
branch, also panics on every input and never returns normally. -/
theorem or_check_unimplemented {T : Type} (f : OrFact T) (v : T)
    (u : Unstructured) :
    OrFact.check f v = RunOutcome.panic "not yet implemented" ∧
    OrFact.mutate f v u = RunOutcome.panic "not yet implemented" :=
  ⟨rfl, rfl⟩

end Contrafact
